import Mathlib

/-!
Verification of the shorts-generation pipeline (`src/server.js`).

This file gives a shallow embedding of the pure/algorithmic parts of the
server and proves properties about them:

* `generateCaption` — caption synthesis with hashtag appending (server.js 129-137);
* `ffEscape` — drawtext escaping of apostrophes and colons (server.js 140);
* clip acceptance, rendition selection and candidate accumulation
  (`fetchClipsForTopic`, server.js 228-247);
* segment timing and the filter graph built by `createVideo`
  (server.js 262-297);
* the encoder progress mapping (server.js 330-344);
* the orchestration trace of `generateAndUpload` including cleanup
  (server.js 372-388) together with the error handling of its callers.

Numbers that JavaScript holds as doubles are modelled as rationals, and
`Number(x.toFixed(3))` as rounding half-up at millisecond precision.
-/

namespace Shorts

/-! ## Caption generation (server.js 129-137)

```js
function generateCaption(topic) {
  const base = `Echoes from ${topic}.`;
  const tags = ['#history', '#USA', '#vintage', '#shorts'];
  let result = base;
  for (const tag of tags) {
    if ((result + ' ' + tag).length <= 90) result += ' ' + tag;
  }
  return result;
}
```
-/

def captionTags : List String := ["#history", "#USA", "#vintage", "#shorts"]

def captionBase (topic : String) : String := "Echoes from " ++ topic ++ "."

/-- One iteration of the hashtag loop: append the tag when the extended
text still fits in the 90-character budget, otherwise keep `result`. -/
def captionStep (result tag : String) : String :=
  if (result ++ " " ++ tag).length ≤ 90 then result ++ " " ++ tag else result

def generateCaption (topic : String) : String :=
  captionTags.foldl captionStep (captionBase topic)

/-- Same loop, additionally recording the list of tags that were appended. -/
def captionStepT (st : String × List String) (tag : String) : String × List String :=
  if (st.1 ++ " " ++ tag).length ≤ 90 then (st.1 ++ " " ++ tag, st.2 ++ [tag]) else st

def captionTrace (topic : String) : String × List String :=
  captionTags.foldl captionStepT (captionBase topic, [])

/-- Boolean check that `xs` is an initial segment of `ys`. -/
def startsList : List String → List String → Bool
  | [], _ => true
  | _ :: _, [] => false
  | x :: xs, y :: ys => x == y && startsList xs ys

/-! ## drawtext escaping (server.js 140)

```js
const ffEscape = s => s.replace(/'/g, "\\'").replace(/:/g, '\\:');
```
Modelled on `List Char`; the two global single-character replacements are
per-character expansions applied in sequence. -/

def quoteChar : Char := Char.ofNat 39
def backslashChar : Char := Char.ofNat 92
def colonChar : Char := ':'

/-- Global replacement of the single character `target` by backslash-target. -/
def escapeChar (target : Char) : List Char → List Char
  | [] => []
  | c :: rest =>
      (if c = target then [backslashChar, c] else [c]) ++ escapeChar target rest

def ffEscape (s : List Char) : List Char :=
  escapeChar colonChar (escapeChar quoteChar s)

def ffEscapeS (s : String) : String := String.mk (ffEscape s.data)

/-- Scanner for the escaping property: `noUnescaped prev l` is `true` iff no
apostrophe or colon occurs in `l` without a backslash character immediately
before it (`prev` says whether the character before `l` is a backslash). -/
def noUnescaped : Bool → List Char → Bool
  | _, [] => true
  | prev, c :: rest =>
      if (c == quoteChar || c == colonChar) && !prev then false
      else noUnescaped (c == backslashChar) rest

/-! ## Segment timing (server.js 262-271)

```js
const xfadeDur = 0.35;
const totalDur = 15.0;
const count = Math.min(clips.length, 6);
const segDur = Number(((totalDur + xfadeDur * (count - 1)) / count).toFixed(3));
const offsets = [];
for (let i = 0; i < count; i++) {
  offsets.push(i === 0 ? 0 : Number((offsets[i - 1] + segDur - xfadeDur).toFixed(3)));
}
```
`Number(x.toFixed(3))` is modelled as rounding half-up at three decimals. -/

def xfadeDur : ℚ := 7 / 20
def totalDur : ℚ := 15

/-- Model of `Number(x.toFixed(3))`: round to millisecond precision (half up). -/
def round3 (q : ℚ) : ℚ := (⌊1000 * q + 1 / 2⌋ : ℚ) / 1000

def segDur (count : ℕ) : ℚ :=
  round3 ((totalDur + xfadeDur * ((count : ℚ) - 1)) / (count : ℚ))

/-- Entry `offsets[i]` of the loop above: `offsets[0] = 0`, and each later entry is
the previous (already rounded) entry plus `segDur - xfadeDur`, re-rounded. -/
def offsetAt (count : ℕ) : ℕ → ℚ
  | 0 => 0
  | i + 1 => round3 (offsetAt count i + segDur count - xfadeDur)

/-! ## Clip acceptance and accumulation (server.js 228-247)

```js
const chosen = [];
for (const q of queries) {
  try {
    const results = await pexelsSearch(q);
    for (const video of results) {
      const { width, height, video_files: files, duration } = video;
      if (height < width) continue;
      let file = files.find(vf => vf.quality === 'hd' && vf.width >= 720) ||
                 files.find(vf => vf.width >= 480) || files[0];
      if (!file) continue;
      chosen.push({ url: file.link, duration });
      if (chosen.length >= 8) break;
    }
  } catch (err) { console.error('Pexels search error:', err.message); }
  if (chosen.length >= 8) break;
}
if (chosen.length < 6) throw new Error('لا توجد مقاطع كافية من Pexels');
```
A provider query is modelled by its outcome: `none` for a thrown provider
error, `some results` for a successful response. -/

structure VideoFile where
  quality : String
  width : ℕ
  link : String
deriving DecidableEq, Repr

structure PexVideo where
  width : ℕ
  height : ℕ
  video_files : List VideoFile
  duration : ℚ
deriving DecidableEq, Repr

structure ChosenClip where
  url : String
  duration : ℚ
deriving DecidableEq, Repr

/-- Rendition selection `files.find(hd && width>=720) || files.find(width>=480) || files[0]`. -/
def pickFile (files : List VideoFile) : Option VideoFile :=
  match files.find? (fun vf => vf.quality == "hd" && 720 ≤ vf.width) with
  | some f => some f
  | none =>
    match files.find? (fun vf => 480 ≤ vf.width) with
    | some f => some f
    | none => files.head?

/-- The body of the inner loop for one candidate: reject landscape
orientation, otherwise select a rendition (rejecting when none exists). -/
def acceptVideo (v : PexVideo) : Option ChosenClip :=
  if v.height < v.width then none
  else (pickFile v.video_files).map fun f => ⟨f.link, v.duration⟩

/-- Inner loop over one query's results, with the cap-8 break after a push. -/
def addFromResults : List ChosenClip → List PexVideo → List ChosenClip
  | chosen, [] => chosen
  | chosen, v :: rest =>
    match acceptVideo v with
    | none => addFromResults chosen rest
    | some c =>
      if (chosen ++ [c]).length ≥ 8 then chosen ++ [c]
      else addFromResults (chosen ++ [c]) rest

/-- Outer loop over the query outcomes; a failed query (`none`) is skipped. -/
def accumulate : List ChosenClip → List (Option (List PexVideo)) → List ChosenClip
  | chosen, [] => chosen
  | chosen, none :: qs => accumulate chosen qs
  | chosen, some results :: qs =>
    let chosen' := addFromResults chosen results
    if chosen'.length ≥ 8 then chosen' else accumulate chosen' qs

def insufficientMsg : String := "لا توجد مقاطع كافية من Pexels"

/-- Candidate-selection part of `fetchClipsForTopic`: accumulate accepted
candidates over the query outcomes and fail when fewer than 6 were found. -/
def sourceClips (queryResults : List (Option (List PexVideo))) :
    Except String (List ChosenClip) :=
  let chosen := accumulate [] queryResults
  if chosen.length < 6 then .error insufficientMsg else .ok chosen

/-! ## Filter graph construction (server.js 272-297)

Each pushed filter string is modelled as a structured node; the string
formatting (`trim=0:...`, `xfade=transition=fade:...`, `drawtext=text=...`)
is presentation of exactly these parameters.

```js
const filters = [];
const escTitle = ffEscape(title);
for (let i = 0; i < count; i++) {
  filters.push(`[${i}:v]trim=0:${segDur},setpts=PTS-STARTPTS,scale=1080:-2,crop=1080:1920:...[v${i}]`);
}
let current = '[v0]';
for (let i = 1; i < count; i++) {
  const out = i === count - 1 ? '[vtmp]' : `[vxf${i}]`;
  filters.push(`${current}[v${i}]xfade=transition=fade:duration=${xfadeDur}:offset=${offsets[i]}${out}`);
  current = out;
}
filters.push(`${current}drawtext=text='${escTitle}':...[vtxt1]`);
filters.push(`[vtxt1]drawtext=text='American Short Story':...[vfinal]`);
```
-/

inductive GNode where
  /-- Node `[i:v]trim=0:segDur,setpts=PTS-STARTPTS,scale=1080:-2,crop=1080:1920:…[vi]`. -/
  | preproc (i : ℕ) (segDur : ℚ) (out : String)
  /-- Node `left right xfade=transition=fade:duration=dur:offset=off out`. -/
  | xfade (left right : String) (dur off : ℚ) (out : String)
  /-- Node `inp drawtext=text=...:… out`. -/
  | drawtext (inp : String) (text : String) (out : String)
deriving DecidableEq, Repr

def GNode.out : GNode → String
  | .preproc _ _ o => o
  | .xfade _ _ _ _ o => o
  | .drawtext _ _ o => o

def GNode.isPreproc : GNode → Bool
  | .preproc _ _ _ => true
  | _ => false

def GNode.isXfade : GNode → Bool
  | .xfade _ _ _ _ _ => true
  | _ => false

def GNode.isDrawtext : GNode → Bool
  | .drawtext _ _ _ => true
  | _ => false

def vName (i : ℕ) : String := "[v" ++ toString i ++ "]"

def vxfName (i : ℕ) : String := "[vxf" ++ toString i ++ "]"

/-- The cross-fade loop: fold over `i = 0 … count-1` skipping `i = 0`,
carrying the accumulated nodes and the `current` label. -/
def xfadeFold (count : ℕ) : List GNode × String :=
  (List.range count).foldl
    (fun acc i =>
      if i = 0 then acc
      else
        let out := if i = count - 1 then "[vtmp]" else vxfName i
        (acc.1 ++ [GNode.xfade acc.2 (vName i) xfadeDur (offsetAt count i) out], out))
    ([], "[v0]")

/-- The full filter list of `createVideo`, plus the final node name
(`'vfinal'` is the second argument of `cmd.complexFilter`, line 305). -/
def buildFilters (count : ℕ) (title : String) : List GNode :=
  ((List.range count).map fun i => GNode.preproc i (segDur count) (vName i))
  ++ (xfadeFold count).1
  ++ [GNode.drawtext (xfadeFold count).2 (ffEscapeS title) "[vtxt1]",
      GNode.drawtext "[vtxt1]" "American Short Story" "[vfinal]"]

def finalNodeName : String := "[vfinal]"

/-! ## Encoder progress mapping (server.js 330-344)

```js
let lastPct = 35;
cmd.on('progress', p => {
  if (p.percent) {
    const pct = Math.max(35, Math.min(75, 35 + Math.round(p.percent * 0.4)));
    if (pct !== lastPct) { lastPct = pct; broadcastProgress('compose', ..., pct); }
  }
});
```
`round` in Mathlib is `⌊x + 1/2⌋`, which matches `Math.round`. -/

def mapPct (native : ℚ) : ℤ :=
  max 35 (min 75 (35 + round (native * (2 / 5))))

/-- One progress callback: returns the new `lastPct` and the forwarded value
(`none` when nothing is broadcast). `native = 0` is falsy in `if (p.percent)`. -/
def progressStep (lastPct : ℤ) (native : ℚ) : ℤ × Option ℤ :=
  if native = 0 then (lastPct, none)
  else
    let pct := mapPct native
    if pct ≠ lastPct then (pct, some pct) else (lastPct, none)

/-! ## Orchestration and cleanup (server.js 372-388 with callers 481-489)

```js
async function generateAndUpload({ topic, privacy }) {
  ...
  const clips = await fetchClipsForTopic(finalTopic);
  broadcastProgress('caption', ..., 32);
  const caption = generateCaption(finalTopic);
  const videoPath = await createVideo(clips, finalTopic);   // ends with progress 82
  const id = await uploadToYouTube(...);                    // progress 85 … 98
  const url = `https://youtu.be/${id}`;
  try {
    await fs.unlink(videoPath);
    for (const c of clips) await fs.unlink(c.path);
  } catch {}
  broadcastProgress('upload', ..., 100);
  broadcastDone(url);
  return ...;
}
```
A stage failure rejects the whole promise; the caller (the `/generate`
handler or the cron job) catches it and calls `broadcastError(err.message)`.
Stage outcomes are injected, and the observable actions (successful file
deletions and broadcast events) are collected in order; stage-internal
progress events belong to the injected stages and are omitted. -/

inductive Act where
  | unlink (p : String)
  | progress (stepId : String) (pct : ℕ)
  | done (url : String)
  | error (msg : String)
deriving DecidableEq, Repr

def Act.isUnlink : Act → Bool
  | .unlink _ => true
  | _ => false

def Act.isError : Act → Bool
  | .error _ => true
  | _ => false

def Act.isTerminal : Act → Bool
  | .done _ => true
  | .error _ => true
  | _ => false

/-- The `try { unlink(videoPath); for (c of clips) unlink(c.path) } catch {}`
block: deletions happen in order and stop at the first failing `unlink`
(its exception aborts the block and is swallowed by the `catch`).
`fails p = true` means `fs.unlink(p)` rejects. -/
def cleanupActs (fails : String → Bool) (videoPath : String)
    (clipPaths : List String) : List Act :=
  ((videoPath :: clipPaths).takeWhile fun p => !fails p).map Act.unlink

/-- Trace of `generateAndUpload` wrapped in its caller's `try/catch`, as the ordered
list of observable actions. Stage outcomes are injected: `fetchRes` is the
list of downloaded clip paths (or the sourcing/download error), `composeRes`
the composed output path (or the encoder error), `uploadRes` the remote
video id (or the upload error). -/
def runJob (fetchRes : Except String (List String))
    (composeRes : Except String String) (uploadRes : Except String String)
    (fails : String → Bool) : List Act :=
  match fetchRes with
  | .error e => [Act.error e]
  | .ok clipPaths =>
    Act.progress "caption" 32 ::
    match composeRes with
    | .error e => [Act.error e]
    | .ok videoPath =>
      match uploadRes with
      | .error e => [Act.error e]
      | .ok id =>
        cleanupActs fails videoPath clipPaths
        ++ [Act.progress "upload" 100, Act.done ("https://youtu.be/" ++ id)]

/-! ## Helper lemmas -/

theorem escapeChar_append (t : Char) (xs ys : List Char) :
    escapeChar t (xs ++ ys) = escapeChar t xs ++ escapeChar t ys := by
  induction xs with
  | nil => rfl
  | cons c rest ih => simp [escapeChar, ih]

theorem quoteChar_ne_colonChar : quoteChar ≠ colonChar := by decide

theorem backslashChar_ne_quoteChar : backslashChar ≠ quoteChar := by decide

theorem backslashChar_ne_colonChar : backslashChar ≠ colonChar := by decide

/-- C9: for every input string the drawtext escaper produces output in which
every occurrence of an apostrophe or a colon is immediately preceded by a
backslash, whatever character precedes the output (`prev`). -/
theorem ffEscape_no_unescaped (s : List Char) (prev : Bool) :
    noUnescaped prev (ffEscape s) = true := by
  induction s generalizing prev with
  | nil => rfl
  | cons c rest ih =>
    show noUnescaped prev (escapeChar colonChar (escapeChar quoteChar (c :: rest))) = true
    rw [show escapeChar quoteChar (c :: rest)
          = (if c = quoteChar then [backslashChar, c] else [c]) ++ escapeChar quoteChar rest
        from rfl,
      escapeChar_append]
    by_cases hq : c = quoteChar
    · subst hq
      simp only [if_pos rfl, escapeChar,
        if_neg backslashChar_ne_colonChar, if_neg quoteChar_ne_colonChar]
      simp only [List.cons_append, List.nil_append, noUnescaped,
        beq_self_eq_true, Bool.or_true, Bool.true_or]
      rw [if_neg (by simp [backslashChar_ne_quoteChar, backslashChar_ne_colonChar]),
        if_neg (by simp)]
      have : (quoteChar == backslashChar) = false := by decide
      rw [this]
      exact ih false
    · by_cases hc : c = colonChar
      · subst hc
        simp only [if_neg hq, escapeChar, if_pos rfl, List.append_nil]
        simp only [List.cons_append, List.nil_append, noUnescaped]
        rw [if_neg (by simp [backslashChar_ne_quoteChar, backslashChar_ne_colonChar]),
          if_neg (by simp)]
        have : (colonChar == backslashChar) = false := by decide
        rw [this]
        exact ih false
      · simp only [if_neg hq, escapeChar, if_neg hc, List.append_nil]
        simp only [List.cons_append, List.nil_append, noUnescaped]
        rw [if_neg (by simp [hq, hc])]
        exact ih _

/-! ## Caption claims -/

theorem captionStepT_pos (res t : String) (acc : List String)
    (h : (res ++ " " ++ t).length ≤ 90) :
    captionStepT (res, acc) t = (res ++ " " ++ t, acc ++ [t]) := by
  simp only [captionStepT]
  exact if_pos h

theorem captionStepT_neg (res t : String) (acc : List String)
    (h : ¬(res ++ " " ++ t).length ≤ 90) :
    captionStepT (res, acc) t = (res, acc) := by
  simp only [captionStepT]
  exact if_neg h

theorem captionStep_pos (res t : String) (h : (res ++ " " ++ t).length ≤ 90) :
    captionStep res t = res ++ " " ++ t := by
  simp only [captionStep]
  exact if_pos h

theorem captionStep_neg (res t : String) (h : ¬(res ++ " " ++ t).length ≤ 90) :
    captionStep res t = res := by
  simp only [captionStep]
  exact if_neg h

theorem captionFold_fst (tags : List String) (res : String) (acc : List String) :
    (tags.foldl captionStepT (res, acc)).1 = tags.foldl captionStep res := by
  induction tags generalizing res acc with
  | nil => rfl
  | cons t rest ih =>
    show (rest.foldl captionStepT (captionStepT (res, acc) t)).1
        = rest.foldl captionStep (captionStep res t)
    by_cases h : (res ++ " " ++ t).length ≤ 90
    · rw [captionStepT_pos res t acc h, captionStep_pos res t h]
      exact ih _ _
    · rw [captionStepT_neg res t acc h, captionStep_neg res t h]
      exact ih _ _

theorem captionFold_sublist (tags : List String) (res : String) (acc : List String) :
    ∃ ext, (tags.foldl captionStepT (res, acc)).2 = acc ++ ext ∧ ext.Sublist tags := by
  induction tags generalizing res acc with
  | nil => exact ⟨[], by simp, List.nil_sublist _⟩
  | cons t rest ih =>
    show ∃ ext, (rest.foldl captionStepT (captionStepT (res, acc) t)).2 = acc ++ ext ∧
      ext.Sublist (t :: rest)
    by_cases h : (res ++ " " ++ t).length ≤ 90
    · obtain ⟨ext, he, hs⟩ := ih (res ++ " " ++ t) (acc ++ [t])
      refine ⟨t :: ext, ?_, List.Sublist.cons₂ t hs⟩
      rw [captionStepT_pos res t acc h, he, List.append_assoc]
      rfl
    · obtain ⟨ext, he, hs⟩ := ih res acc
      refine ⟨ext, ?_, List.Sublist.cons t hs⟩
      rw [captionStepT_neg res t acc h]
      exact he

def topic55 : String := String.mk (List.replicate 55 'a')

set_option maxRecDepth 8192 in
/-- C3 counterexample: for the 55-character topic, the hashtag loop skips
`"#vintage"` (which would overflow the budget) but still appends the later
tag `"#shorts"`, so the appended tags are not a prefix of the fixed tag list
and appending does not stop at the first overflowing tag. -/
theorem captionTags_not_initial :
    (captionTrace topic55).2 = ["#history", "#USA", "#shorts"] ∧
    startsList (captionTrace topic55).2 captionTags = false ∧
    (captionTrace topic55).2.contains "#shorts" = true ∧
    (captionTrace topic55).2.contains "#vintage" = false := by
  refine ⟨by decide, by decide, by decide, by decide⟩

/-- C3 amended: the hashtag loop appends, in order, exactly those tags whose
addition keeps the text within the 90-character budget; an overflowing tag is
skipped and later tags may still be appended, so the appended tags form an
in-order subsequence (not necessarily a prefix) of the fixed tag list. -/
theorem captionTags_sublist (topic : String) :
    (captionTrace topic).1 = generateCaption topic ∧
    ((captionTrace topic).2).Sublist captionTags := by
  constructor
  · exact captionFold_fst captionTags (captionBase topic) []
  · obtain ⟨ext, he, hs⟩ := captionFold_sublist captionTags (captionBase topic) []
    have h2 : (captionTrace topic).2
        = (captionTags.foldl captionStepT (captionBase topic, [])).2 := rfl
    rw [h2, he]
    simpa using hs

def topic78 : String := String.mk (List.replicate 78 'a')

set_option maxRecDepth 8192 in
/-- C4 counterexample: for a 78-character topic the base sentence alone is 91
characters, so the generated caption exceeds the 90-character budget. -/
theorem generateCaption_over90 :
    (generateCaption topic78).length = 91 ∧ 90 < (generateCaption topic78).length := by
  refine ⟨by decide, by decide⟩

theorem captionStep_foldl_le (tags : List String) (res : String) :
    (tags.foldl captionStep res).length ≤ max res.length 90 := by
  induction tags generalizing res with
  | nil => exact le_max_left _ _
  | cons t rest ih =>
    show (rest.foldl captionStep (captionStep res t)).length ≤ max res.length 90
    by_cases h : (res ++ " " ++ t).length ≤ 90
    · calc (rest.foldl captionStep (captionStep res t)).length
          ≤ max (captionStep res t).length 90 := ih _
        _ ≤ 90 := by
            rw [captionStep_pos res t h]
            omega
        _ ≤ max res.length 90 := le_max_right _ _
    · rw [captionStep_neg res t h]
      exact ih res

/-- C4 amended: the hashtag loop never pushes the caption past 90 characters,
so the generated caption is at most `max (topic.length + 13) 90` characters
long; it fits the 90-character budget whenever the base sentence
`Echoes from topic.` itself does (topics of at most 77 characters). -/
theorem generateCaption_length_le (topic : String) :
    (generateCaption topic).length ≤ max (topic.length + 13) 90 := by
  have hbase : (captionBase topic).length = topic.length + 13 := by
    have h1 : "Echoes from ".length = 12 := rfl
    have h2 : ".".length = 1 := rfl
    simp only [captionBase, String.length_append, h1, h2]
    omega
  calc (generateCaption topic).length
      ≤ max (captionBase topic).length 90 := captionStep_foldl_le captionTags _
    _ = max (topic.length + 13) 90 := by rw [hbase]

/-! ## Segment timing claims -/

/-- C2 counterexample: already at clip count 2 — where no rounding error is
involved at all (`segDur 2 = 7.675`, `offset 1 = 7.325` exactly) — the final
offset plus the segment duration equals `totalDur = 15`, which is a full
cross-fade duration (`0.35`) away from `totalDur + xfadeDur = 15.35`, far
outside any millisecond rounding tolerance. -/
theorem offsets_sum_ne_claim :
    offsetAt 2 1 + segDur 2 = totalDur ∧
    totalDur + xfadeDur - (offsetAt 2 1 + segDur 2) = 7 / 20 ∧
    1 / 100 < |offsetAt 2 1 + segDur 2 - (totalDur + xfadeDur)| := by
  refine ⟨?_, ?_, ?_⟩
  · norm_num [offsetAt, segDur, round3, xfadeDur, totalDur]
  · norm_num [offsetAt, segDur, round3, xfadeDur, totalDur]
  · have h : offsetAt 2 1 + segDur 2 - (totalDur + xfadeDur) = -(7 / 20) := by
      norm_num [offsetAt, segDur, round3, xfadeDur, totalDur]
    rw [h, abs_neg, abs_of_nonneg (by norm_num : (0 : ℚ) ≤ 7 / 20)]
    norm_num

/-- C2 amended: for every clip count `c` in `[1, 6]`, the segment offsets are
non-decreasing and `offset[c-1] + segDur` equals `totalDuration` (not
`totalDuration + crossfadeDuration`) within rounding tolerance (the rounded
values deviate from 15 by at most 2 milliseconds, well inside `1/100`). -/
theorem offsets_monotone_sum (c : ℕ) (h1 : 1 ≤ c) (h6 : c ≤ 6) :
    (∀ i < c - 1, offsetAt c i ≤ offsetAt c (i + 1)) ∧
    |offsetAt c (c - 1) + segDur c - totalDur| ≤ 1 / 100 := by
  interval_cases c <;>
    refine ⟨fun i hi => ?_, ?_⟩ <;>
    first
      | (interval_cases i <;>
          norm_num [offsetAt, segDur, round3, xfadeDur, totalDur])
      | norm_num [offsetAt, segDur, round3, xfadeDur, totalDur, abs_le]

/-- Witness for `offsets_monotone_sum` at clip count 6. -/
theorem offsets_monotone_sum_witness :
    (∀ i < 6 - 1, offsetAt 6 i ≤ offsetAt 6 (i + 1)) ∧
    |offsetAt 6 (6 - 1) + segDur 6 - totalDur| ≤ 1 / 100 :=
  offsets_monotone_sum 6 (by norm_num) (by norm_num)

/-! ## Clip sourcing claims -/

theorem accumulate_skip_none (qs₁ qs₂ : List (Option (List PexVideo)))
    (chosen : List ChosenClip) :
    accumulate chosen (qs₁ ++ none :: qs₂) = accumulate chosen (qs₁ ++ qs₂) := by
  induction qs₁ generalizing chosen with
  | nil => rfl
  | cons q rest ih =>
    match q with
    | none => exact ih chosen
    | some results =>
      show (if (addFromResults chosen results).length ≥ 8
            then addFromResults chosen results
            else accumulate (addFromResults chosen results) (rest ++ none :: qs₂))
          = (if (addFromResults chosen results).length ≥ 8
            then addFromResults chosen results
            else accumulate (addFromResults chosen results) (rest ++ qs₂))
      by_cases h : (addFromResults chosen results).length ≥ 8
      · rw [if_pos h, if_pos h]
      · rw [if_neg h, if_neg h]
        exact ih _

/-- C5: a provider query that fails (`none`), wherever it occurs in the query
list, is skipped and never by itself aborts sourcing, and sourcing fails with
the insufficient-clips error exactly when fewer than 6 acceptable candidates
were accumulated across all queries. -/
theorem sourceClips_spec (qs₁ qs₂ qrs : List (Option (List PexVideo)))
    (chosen : List ChosenClip) :
    (accumulate chosen (qs₁ ++ none :: qs₂) = accumulate chosen (qs₁ ++ qs₂)) ∧
    (sourceClips (qs₁ ++ none :: qs₂) = sourceClips (qs₁ ++ qs₂)) ∧
    (sourceClips qrs = Except.error insufficientMsg ↔ (accumulate [] qrs).length < 6) ∧
    (sourceClips qrs = Except.ok (accumulate [] qrs) ↔ 6 ≤ (accumulate [] qrs).length) := by
  refine ⟨accumulate_skip_none qs₁ qs₂ chosen, ?_, ?_, ?_⟩
  · show (if (accumulate [] (qs₁ ++ none :: qs₂)).length < 6 then _ else _)
        = (if (accumulate [] (qs₁ ++ qs₂)).length < 6 then _ else _)
    rw [accumulate_skip_none qs₁ qs₂ []]
  · show (if (accumulate [] qrs).length < 6
          then Except.error insufficientMsg else Except.ok (accumulate [] qrs))
          = Except.error insufficientMsg ↔ _
    by_cases h : (accumulate [] qrs).length < 6
    · simp [h]
    · simp [h]
  · show (if (accumulate [] qrs).length < 6
          then Except.error insufficientMsg else Except.ok (accumulate [] qrs))
          = Except.ok (accumulate [] qrs) ↔ _
    by_cases h : (accumulate [] qrs).length < 6
    · simp only [if_pos h]
      constructor
      · intro heq
        exact absurd heq (by simp)
      · omega
    · simp only [if_neg h]
      constructor
      · intro _
        omega
      · intro _
        trivial

/-! ## Acceptance filter claims -/

theorem pickFile_hd (files : List VideoFile)
    (h : ∃ f ∈ files, f.quality = "hd" ∧ 720 ≤ f.width) :
    pickFile files = files.find? fun vf => vf.quality == "hd" && 720 ≤ vf.width := by
  have hs : (files.find? fun vf => vf.quality == "hd" && 720 ≤ vf.width).isSome := by
    rw [List.find?_isSome]
    obtain ⟨f, hf, hq, hw⟩ := h
    exact ⟨f, hf, by simp [hq, hw]⟩
  obtain ⟨f, hf⟩ := Option.isSome_iff_exists.mp hs
  simp only [pickFile, hf]

theorem pickFile_480 (files : List VideoFile)
    (h1 : ∀ f ∈ files, ¬(f.quality = "hd" ∧ 720 ≤ f.width))
    (h2 : ∃ f ∈ files, 480 ≤ f.width) :
    pickFile files = files.find? fun vf => 480 ≤ vf.width := by
  have hn : (files.find? fun vf => vf.quality == "hd" && 720 ≤ vf.width) = none := by
    rw [List.find?_eq_none]
    intro f hf
    have := h1 f hf
    simp only [Bool.and_eq_true, beq_iff_eq, decide_eq_true_eq]
    tauto
  have hs : (files.find? fun vf => decide (480 ≤ vf.width)).isSome := by
    rw [List.find?_isSome]
    obtain ⟨f, hf, hw⟩ := h2
    exact ⟨f, hf, by simp [hw]⟩
  obtain ⟨f, hf⟩ := Option.isSome_iff_exists.mp hs
  simp only [pickFile, hn, hf]

theorem pickFile_head (files : List VideoFile)
    (h1 : ∀ f ∈ files, ¬(f.quality = "hd" ∧ 720 ≤ f.width))
    (h2 : ∀ f ∈ files, ¬480 ≤ f.width) :
    pickFile files = files.head? := by
  have hn1 : (files.find? fun vf => vf.quality == "hd" && 720 ≤ vf.width) = none := by
    rw [List.find?_eq_none]
    intro f hf
    have := h1 f hf
    simp only [Bool.and_eq_true, beq_iff_eq, decide_eq_true_eq]
    tauto
  have hn2 : (files.find? fun vf => decide (480 ≤ vf.width)) = none := by
    rw [List.find?_eq_none]
    intro f hf
    simpa using h2 f hf
  simp only [pickFile, hn1, hn2]

/-- C8: the acceptance filter rejects a candidate whose height is less than
its width; otherwise it selects a rendition by strict preference order — the
first rendition tagged "hd" with width at least 720 if one exists, else the
first rendition with width at least 480, else the first rendition of the
list — and rejects the candidate when it has no rendition at all. -/
theorem acceptVideo_spec (v : PexVideo) :
    (v.height < v.width → acceptVideo v = none) ∧
    (¬v.height < v.width →
      (v.video_files = [] → acceptVideo v = none) ∧
      ((∃ f ∈ v.video_files, f.quality = "hd" ∧ 720 ≤ f.width) →
        acceptVideo v = (v.video_files.find? fun vf => vf.quality == "hd" && 720 ≤ vf.width).map
          fun f => ⟨f.link, v.duration⟩) ∧
      ((∀ f ∈ v.video_files, ¬(f.quality = "hd" ∧ 720 ≤ f.width)) →
        (∃ f ∈ v.video_files, 480 ≤ f.width) →
        acceptVideo v = (v.video_files.find? fun vf => 480 ≤ vf.width).map
          fun f => ⟨f.link, v.duration⟩) ∧
      ((∀ f ∈ v.video_files, ¬(f.quality = "hd" ∧ 720 ≤ f.width)) →
        (∀ f ∈ v.video_files, ¬480 ≤ f.width) →
        acceptVideo v = v.video_files.head?.map fun f => ⟨f.link, v.duration⟩)) := by
  constructor
  · intro h
    simp [acceptVideo, h]
  · intro h
    refine ⟨?_, ?_, ?_, ?_⟩
    · intro hemp
      simp [acceptVideo, h, hemp, pickFile]
    · intro hex
      simp only [acceptVideo, if_neg h, pickFile_hd v.video_files hex]
    · intro h1 h2
      simp only [acceptVideo, if_neg h, pickFile_480 v.video_files h1 h2]
    · intro h1 h2
      simp only [acceptVideo, if_neg h, pickFile_head v.video_files h1 h2]

/-- Witness for `acceptVideo_spec`: a landscape candidate is rejected, and a
portrait candidate with an hd rendition of width 720 picks it over the others. -/
theorem acceptVideo_spec_witness :
    acceptVideo ⟨1920, 1080, [⟨"hd", 1280, "big"⟩], 4⟩ = none ∧
    acceptVideo ⟨1080, 1920, [⟨"sd", 540, "small"⟩, ⟨"hd", 720, "good"⟩], 4⟩
      = some ⟨"good", 4⟩ := by
  constructor
  · exact (acceptVideo_spec ⟨1920, 1080, [⟨"hd", 1280, "big"⟩], 4⟩).1 (by norm_num)
  · have h := ((acceptVideo_spec ⟨1080, 1920,
        [⟨"sd", 540, "small"⟩, ⟨"hd", 720, "good"⟩], 4⟩).2 (by norm_num)).2.1
      ⟨⟨"hd", 720, "good"⟩, by simp, rfl, by norm_num⟩
    rw [h]
    rfl

/-! ## Filter graph claims -/

/-- C6: for every clip count `c` in `[1, 6]` and every title, the built
filter graph has exactly `c` per-clip pre-processing (trim/scale/crop) nodes,
exactly `c - 1` cross-fade nodes and exactly 2 text-overlay nodes; its last
node is the second text overlay, it is the only node whose output is the
final node name `[vfinal]`, and that name is the terminal node handed to the
encoder. -/
theorem buildFilters_counts (c : ℕ) (title : String) (h1 : 1 ≤ c) (h6 : c ≤ 6) :
    ((buildFilters c title).countP GNode.isPreproc = c) ∧
    ((buildFilters c title).countP GNode.isXfade = c - 1) ∧
    ((buildFilters c title).countP GNode.isDrawtext = 2) ∧
    ((buildFilters c title).getLast?
      = some (GNode.drawtext "[vtxt1]" "American Short Story" finalNodeName)) ∧
    ((buildFilters c title).countP fun n => n.out == finalNodeName) = 1 := by
  interval_cases c <;>
    refine ⟨?_, ?_, ?_, ?_, ?_⟩ <;>
    simp [buildFilters, xfadeFold, finalNodeName, vName, vxfName,
      List.range_succ, List.countP_cons, GNode.isPreproc, GNode.isXfade,
      GNode.isDrawtext, GNode.out] <;>
    decide

/-- Witness for `buildFilters_counts` at clip count 4. -/
theorem buildFilters_counts_witness :
    ((buildFilters 4 "gold rush tale").countP GNode.isPreproc = 4) ∧
    ((buildFilters 4 "gold rush tale").countP GNode.isXfade = 4 - 1) ∧
    ((buildFilters 4 "gold rush tale").countP GNode.isDrawtext = 2) ∧
    ((buildFilters 4 "gold rush tale").getLast?
      = some (GNode.drawtext "[vtxt1]" "American Short Story" finalNodeName)) ∧
    ((buildFilters 4 "gold rush tale").countP fun n => n.out == finalNodeName) = 1 :=
  buildFilters_counts 4 "gold rush tale" (by norm_num) (by norm_num)

/-! ## Progress mapping claims -/

/-- C7: the encoder's native progress percent is mapped to
`clamp(35, 75, 35 + round(percent * 0.4))`, so the mapped value always lies
in `[35, 75]`; a value is forwarded to the broadcaster only when it is the
mapped value of the current callback and differs from the previously stored
(last forwarded) integer. -/
theorem progress_mapping (native : ℚ) (last : ℤ) :
    (35 ≤ mapPct native ∧ mapPct native ≤ 75) ∧
    (∀ v, (progressStep last native).2 = some v →
      v = mapPct native ∧ v ≠ last ∧ 35 ≤ v ∧ v ≤ 75) := by
  have hb : 35 ≤ mapPct native ∧ mapPct native ≤ 75 := by
    unfold mapPct
    constructor
    · exact le_max_left _ _
    · rw [max_le_iff]
      refine ⟨by norm_num, ?_⟩
      exact min_le_left _ _
  refine ⟨hb, fun v hv => ?_⟩
  unfold progressStep at hv
  by_cases h0 : native = 0
  · rw [if_pos h0] at hv
    exact absurd hv (by simp)
  · rw [if_neg h0] at hv
    by_cases hne : mapPct native ≠ last
    · simp only [if_pos hne, Option.some.injEq] at hv
      subst hv
      exact ⟨rfl, hne, hb.1, hb.2⟩
    · rw [if_neg hne] at hv
      exact absurd hv (by simp)

/-- Witness for `progress_mapping`: native percent 50 with stored value 35
maps to and forwards 55. -/
theorem progress_mapping_witness :
    (55 : ℤ) = mapPct 50 ∧ (55 : ℤ) ≠ 35 ∧ (35 : ℤ) ≤ 55 ∧ (55 : ℤ) ≤ 75 :=
  (progress_mapping 50 35).2 55 (by norm_num [progressStep, mapPct, round])

/-! ## Orchestration and cleanup claims -/

/-- C1 counterexample: when the encoder stage fails after six clips were
sourced, the caller emits the terminal error event but no file is ever
deleted — the downloaded clip files are left on local storage, contradicting
the claim that cleanup happens before the terminal event even when a stage
fails. -/
theorem runJob_no_cleanup_on_failure :
    runJob (Except.ok ["c0", "c1", "c2", "c3", "c4", "c5"])
        (Except.error "encoder failed") (Except.ok "vid") (fun _ => false)
      = [Act.progress "caption" 32, Act.error "encoder failed"] ∧
    (runJob (Except.ok ["c0", "c1", "c2", "c3", "c4", "c5"])
        (Except.error "encoder failed") (Except.ok "vid") (fun _ => false)).countP
        Act.isUnlink = 0 ∧
    (runJob (Except.ok ["c0", "c1", "c2", "c3", "c4", "c5"])
        (Except.error "encoder failed") (Except.ok "vid") (fun _ => false)).countP
        Act.isTerminal = 1 := by
  refine ⟨rfl, by decide, by decide⟩

/-- C1 amended: only on a successful run are the composed output file and the
sourced clip files deleted — in that order, stopping at the first failing
deletion, with deletion errors swallowed — and all deletions happen before
the terminal `done` event, which is emitted last and is never blocked; when a
stage fails, the terminal `error` event is emitted and no cleanup at all is
performed. -/
theorem runJob_cleanup (clips : List String) (videoPath id e : String)
    (uploadRes : Except String String) (fails : String → Bool) :
    ((runJob (Except.ok clips) (Except.ok videoPath) (Except.ok id) fails).getLast?
      = some (Act.done ("https://youtu.be/" ++ id))) ∧
    ((runJob (Except.ok clips) (Except.ok videoPath) (Except.ok id) fails).countP
      Act.isError = 0) ∧
    ((runJob (Except.ok clips) (Except.ok videoPath) (Except.ok id) fails).filter
      Act.isUnlink
      = ((videoPath :: clips).takeWhile fun p => !fails p).map Act.unlink) ∧
    ((runJob (Except.ok clips) (Except.error e) uploadRes fails).filter
      Act.isUnlink = []) ∧
    ((runJob (Except.ok clips) (Except.error e) uploadRes fails).getLast?
      = some (Act.error e)) := by
  refine ⟨?_, ?_, ?_, rfl, rfl⟩
  · show ((Act.progress "caption" 32 :: cleanupActs fails videoPath clips)
        ++ Act.progress "upload" 100 :: [Act.done ("https://youtu.be/" ++ id)]).getLast?
      = some (Act.done ("https://youtu.be/" ++ id))
    rw [List.getLast?_append_cons]
    rfl
  · show (Act.progress "caption" 32 ::
        (cleanupActs fails videoPath clips
          ++ [Act.progress "upload" 100, Act.done ("https://youtu.be/" ++ id)])).countP
        Act.isError = 0
    rw [List.countP_cons, List.countP_append]
    have hc : (cleanupActs fails videoPath clips).countP Act.isError = 0 := by
      rw [cleanupActs, List.countP_map]
      simp [Function.comp, Act.isError]
    rw [hc]
    rfl
  · show (Act.progress "caption" 32 ::
        (cleanupActs fails videoPath clips
          ++ [Act.progress "upload" 100, Act.done ("https://youtu.be/" ++ id)])).filter
        Act.isUnlink
      = ((videoPath :: clips).takeWhile fun p => !fails p).map Act.unlink
    rw [List.filter_cons, List.filter_append]
    have hc : (cleanupActs fails videoPath clips).filter Act.isUnlink
        = cleanupActs fails videoPath clips := by
      rw [List.filter_eq_self]
      intro a ha
      rw [cleanupActs] at ha
      obtain ⟨p, _, rfl⟩ := List.mem_map.mp ha
      rfl
    rw [hc]
    simp [cleanupActs, Act.isUnlink]

/-- C10: the success-path cleanup unlinks the composed output file first and
the sourced clip files after it inside one shared error-swallowing block, so
when deleting the composed output file fails, none of the sourced clip files
is deleted; the terminal `done` event is still emitted. -/
theorem cleanup_video_first (fails : String → Bool) (videoPath id : String)
    (clips : List String) (h : fails videoPath = true) :
    cleanupActs fails videoPath clips = [] ∧
    (runJob (Except.ok clips) (Except.ok videoPath) (Except.ok id) fails).countP
      Act.isUnlink = 0 ∧
    (runJob (Except.ok clips) (Except.ok videoPath) (Except.ok id) fails).getLast?
      = some (Act.done ("https://youtu.be/" ++ id)) := by
  have hc : cleanupActs fails videoPath clips = [] := by
    rw [cleanupActs, List.takeWhile_cons, h]
    rfl
  refine ⟨hc, ?_, ?_⟩
  · show (Act.progress "caption" 32 ::
        (cleanupActs fails videoPath clips
          ++ [Act.progress "upload" 100, Act.done ("https://youtu.be/" ++ id)])).countP
        Act.isUnlink = 0
    rw [hc]
    rfl
  · show (Act.progress "caption" 32 ::
        (cleanupActs fails videoPath clips
          ++ [Act.progress "upload" 100, Act.done ("https://youtu.be/" ++ id)])).getLast?
      = some (Act.done ("https://youtu.be/" ++ id))
    rw [hc]
    rfl

/-- Witness for `cleanup_video_first`: with an output file whose deletion
fails, no file at all is deleted and the run still ends with `done`. -/
theorem cleanup_video_first_witness :
    cleanupActs (fun p => p == "out.mp4") "out.mp4" ["clip0.mp4"] = [] ∧
    (runJob (Except.ok ["clip0.mp4"]) (Except.ok "out.mp4") (Except.ok "vid")
      fun p => p == "out.mp4").countP Act.isUnlink = 0 ∧
    (runJob (Except.ok ["clip0.mp4"]) (Except.ok "out.mp4") (Except.ok "vid")
      fun p => p == "out.mp4").getLast? = some (Act.done "https://youtu.be/vid") :=
  cleanup_video_first (fun p => p == "out.mp4") "out.mp4" "vid" ["clip0.mp4"] (by decide)

end Shorts
